import Mathlib

/-!
# Biblioteca: `app/static/js/main.js`

A shallow embedding of the display helpers of `main.js` (identifier, phone and
date formatters, the counter animation) and the properties proved about them.

JavaScript strings are modelled by Lean strings, read as lists of characters.
The patterns of the source only test for the ASCII digits `0`..`9` (`\d`, `\D`
without the `u` flag), so working on characters instead of UTF-16 code units
does not change any result for well-formed text.
-/

namespace Biblioteca

/-! ## Values and host operations -/

/-- The arguments the formatters are called with: a string (the documented
parameter type) or one of the two non-string values the `if (!x)` guard is
there for. -/
inductive JSVal where
  | undefined : JSVal
  | null : JSVal
  | str : String → JSVal
  deriving DecidableEq, Repr

/-- JavaScript truthiness (`ToBoolean`): `undefined`, `null` and the empty
string are falsy, every other string is truthy. -/
def JSVal.truthy : JSVal → Bool
  | .undefined => false
  | .null => false
  | .str s => !s.data.isEmpty

/-- The host operations a formatter can evaluate: a pattern replacement
(`String.prototype.replace` with a regular expression) or the parsing of a
date (`new Date(string)`). -/
inductive HostCall where
  | regexReplace : HostCall
  | dateParse : HostCall
  deriving DecidableEq, Repr

/-! ## The regular expressions of the source

Every pattern of `main.js` is either `\D` (one non-digit) or a sequence of
capture groups `(\d{k})`. -/

/-- Matches `\d{k}` at the front of the text: the `k` digits and what follows
them, or `none` when fewer than `k` digits stand at the front. -/
def takeDigits : Nat → List Char → Option (List Char × List Char)
  | 0, s => some ([], s)
  | _ + 1, [] => none
  | k + 1, c :: cs =>
    if c.isDigit then
      match takeDigits k cs with
      | some (m, r) => some (c :: m, r)
      | none => none
    else none

/-- Matches the groups `(\d{k₁})(\d{k₂})...` one after the other at the front
of the text: the captured groups and the rest of the text. -/
def matchGroups : List Nat → List Char → Option (List (List Char) × List Char)
  | [], s => some ([], s)
  | k :: ks, s =>
    match takeDigits k s with
    | none => none
    | some (g, r) =>
      match matchGroups ks r with
      | none => none
      | some (gs, r') => some (g :: gs, r')

/-- One piece of a replacement string: a literal character or a group
reference `$i`. -/
inductive Piece where
  | lit : Char → Piece
  | group : Nat → Piece
  deriving DecidableEq, Repr

/-- Expands a replacement string against the captured groups (`$1` is the
first group). -/
def expand (gs : List (List Char)) : List Piece → List Char
  | [] => []
  | .lit c :: ps => c :: expand gs ps
  | .group i :: ps => gs.getD (i - 1) [] ++ expand gs ps

/-- Models `text.replace(/(\d{k₁})(\d{k₂}).../, replacement)` with a pattern without
the `g` flag: the leftmost match is replaced, the text before and after it is
kept, and a text without a match is returned as it is. -/
def replaceFirst (groups : List Nat) (replacement : List Piece) : List Char → List Char
  | [] =>
    match matchGroups groups [] with
    | some (gs, rest) => expand gs replacement ++ rest
    | none => []
  | c :: cs =>
    match matchGroups groups (c :: cs) with
    | some (gs, rest) => expand gs replacement ++ rest
    | none => c :: replaceFirst groups replacement cs

/-- Models `text.replace(/\D/g, '')`: every character that is not an ASCII digit is
deleted. -/
def stripNonDigits (s : List Char) : List Char :=
  s.filter Char.isDigit

/-- The replacement string `'$1.$2.$3-$4'`. -/
def cpfReplacement : List Piece :=
  [.group 1, .lit '.', .group 2, .lit '.', .group 3, .lit '-', .group 4]

/-- The replacement string `'($1) $2-$3'`. -/
def telefoneReplacement : List Piece :=
  [.lit '(', .group 1, .lit ')', .lit ' ', .group 2, .lit '-', .group 3]

/-! ## Dates (ECMA-262, section "Date Objects")

A time value is a number of milliseconds since 1970-01-01T00:00:00Z; the
invalid date (`NaN`) is `none`. The day and year arithmetic below follows the
abstract operations of the standard, on integers. -/

/-- Milliseconds in a day. -/
def msPerDay : ℤ := 86400000

/-- ECMA-262 `Day(t)`: the day number of a time value. -/
def Day (t : ℤ) : ℤ := t / msPerDay

/-- ECMA-262 `DaysInYear(y)`. -/
def DaysInYear (y : ℤ) : ℤ :=
  if y % 4 ≠ 0 then 365
  else if y % 100 ≠ 0 then 366
  else if y % 400 ≠ 0 then 365
  else 366

/-- ECMA-262 `DayFromYear(y)`: the day number of the first day of year `y`. -/
def DayFromYear (y : ℤ) : ℤ :=
  365 * (y - 1970) + (y - 1969) / 4 - (y - 1901) / 100 + (y - 1601) / 400

/-- ECMA-262 `TimeFromYear(y)`. -/
def TimeFromYear (y : ℤ) : ℤ := msPerDay * DayFromYear y

/-- ECMA-262 `YearFromTime(t)`: the largest `y` with `TimeFromYear(y) ≤ t`,
computed from the estimate `1970 + ⌊400 · Day(t) / 146097⌋`, which is off by
at most one year. -/
def YearFromTime (t : ℤ) : ℤ :=
  let d := Day t
  let y := 1970 + (400 * d) / 146097
  if DayFromYear (y + 1) ≤ d then y + 1
  else if DayFromYear y ≤ d then y
  else y - 1

/-- ECMA-262 `InLeapYear(t)`: `1` in a leap year, `0` otherwise. -/
def InLeapYear (t : ℤ) : ℤ :=
  if DaysInYear (YearFromTime t) = 366 then 1 else 0

/-- ECMA-262 `DayWithinYear(t)`. -/
def DayWithinYear (t : ℤ) : ℤ := Day t - DayFromYear (YearFromTime t)

/-- ECMA-262 `MonthFromTime(t)`: the month, `0` (January) to `11`. -/
def MonthFromTime (t : ℤ) : ℤ :=
  let d := DayWithinYear t
  let l := InLeapYear t
  if d < 31 then 0
  else if d < 59 + l then 1
  else if d < 90 + l then 2
  else if d < 120 + l then 3
  else if d < 151 + l then 4
  else if d < 181 + l then 5
  else if d < 212 + l then 6
  else if d < 243 + l then 7
  else if d < 273 + l then 8
  else if d < 304 + l then 9
  else if d < 334 + l then 10
  else 11

/-- ECMA-262 `DateFromTime(t)`: the day of the month, `1` to `31`. -/
def DateFromTime (t : ℤ) : ℤ :=
  let d := DayWithinYear t
  let l := InLeapYear t
  let m := MonthFromTime t
  if m = 0 then d + 1
  else if m = 1 then d - 30
  else if m = 2 then d - 58 - l
  else if m = 3 then d - 89 - l
  else if m = 4 then d - 119 - l
  else if m = 5 then d - 150 - l
  else if m = 6 then d - 180 - l
  else if m = 7 then d - 211 - l
  else if m = 8 then d - 242 - l
  else if m = 9 then d - 272 - l
  else if m = 10 then d - 303 - l
  else d - 333 - l

/-- Days of year `y` that precede its month `m` (`0` to `11`). -/
def daysBeforeMonth (y m : ℤ) : ℤ :=
  let l : ℤ := if DaysInYear y = 366 then 1 else 0
  if m = 0 then 0
  else if m = 1 then 31
  else if m = 2 then 59 + l
  else if m = 3 then 90 + l
  else if m = 4 then 120 + l
  else if m = 5 then 151 + l
  else if m = 6 then 181 + l
  else if m = 7 then 212 + l
  else if m = 8 then 243 + l
  else if m = 9 then 273 + l
  else if m = 10 then 304 + l
  else 334 + l

/-- The number of days of month `m` (`1` to `12`) of year `y`. -/
def DaysInMonth (y m : ℤ) : ℤ :=
  if m = 2 then (if DaysInYear y = 366 then 29 else 28)
  else if m = 4 ∨ m = 6 ∨ m = 9 ∨ m = 11 then 30
  else 31

/-- ECMA-262 `MakeDay(year, month, date)` with `month` counted from `0`: the
day number of the first day of that month, plus `date - 1`. -/
def MakeDay (year month date : ℤ) : ℤ :=
  let ym := year + month / 12
  let mn := month % 12
  DayFromYear ym + daysBeforeMonth ym mn + date - 1

/-- ECMA-262 `MakeDate(day, time)`. -/
def MakeDate (day time : ℤ) : ℤ := day * msPerDay + time

/-- The value of an ASCII digit. -/
def digitVal (c : Char) : ℤ := (c.toNat : ℤ) - 48

/-- The date-only form `YYYY-MM-DD` of the ECMA-262 date-time string format:
a date-only string is read as UTC midnight of that day. Months `01`..`12` and
days `01`..`31` are the legal values of the format; any other text is not of
this form. -/
def isoDateParse (s : String) : Option ℤ :=
  match s.data with
  | [y1, y2, y3, y4, a, m1, m2, b, d1, d2] =>
    if a = '-' ∧ b = '-' ∧ [y1, y2, y3, y4, m1, m2, d1, d2].all Char.isDigit then
      let y := 1000 * digitVal y1 + 100 * digitVal y2 + 10 * digitVal y3 + digitVal y4
      let m := 10 * digitVal m1 + digitVal m2
      let d := 10 * digitVal d1 + digitVal d2
      if 1 ≤ m ∧ m ≤ 12 ∧ 1 ≤ d ∧ d ≤ 31 then some (MakeDate (MakeDay y (m - 1) d) 0)
      else none
    else none
  | _ => none

/-- What the page's host (the browser) supplies to `main.js`. -/
structure Host where
  /-- The time value of `new Date(s)` for a string `s`; `none` is `NaN`. -/
  dateParse : String → Option ℤ
  /-- The offset of local time from UTC, in milliseconds, at a UTC time value
  (ECMA-262 `LocalTZA(t, true)`). -/
  localTZA : ℤ → ℤ
  /-- The rounding of an exact result to the nearest number the host can
  represent (IEEE 754 double precision). -/
  round : ℚ → ℚ
  /-- The result of `parseInt` on an attribute value (`none` as argument: the
  attribute is missing; `none` as result: `NaN`). -/
  parseInt : Option String → Option ℤ
  /-- The result of `Number.prototype.toLocaleString` on an integer or on `NaN`
  (`none`). -/
  toLocaleString : Option ℤ → String

/-- ECMA-262 `LocalTime(t)`. -/
def LocalTime (h : Host) (t : ℤ) : ℤ := t + h.localTZA t

/-- The method `Date.prototype.getDate`, on a valid date. -/
def getDate (h : Host) (t : ℤ) : ℤ := DateFromTime (LocalTime h t)

/-- The method `Date.prototype.getMonth`, on a valid date. -/
def getMonth (h : Host) (t : ℤ) : ℤ := MonthFromTime (LocalTime h t)

/-- The method `Date.prototype.getFullYear`, on a valid date. -/
def getFullYear (h : Host) (t : ℤ) : ℤ := YearFromTime (LocalTime h t)

/-- The method `String.prototype.padStart(n, c)` with a one-character filler. -/
def padStart (n : Nat) (c : Char) (s : String) : String :=
  String.mk (List.leftpad n c s.data)

/-! ## The formatters -/

/-- The function `formatarCPF` with the list of host operations it evaluated. -/
def formatarCPFTraced (cpf : JSVal) : String × List HostCall :=
  if !cpf.truthy then ("", [])
  else
    match cpf with
    | .str s => (String.mk (replaceFirst [3, 3, 3, 2] cpfReplacement s.data), [.regexReplace])
    | _ => ("", [])

/-- The source function `formatarCPF`. -/
def formatarCPF (cpf : JSVal) : String :=
  (formatarCPFTraced cpf).1

/-- The function `formatarTelefone` with the list of host operations it evaluated. -/
def formatarTelefoneTraced (telefone : JSVal) : String × List HostCall :=
  if !telefone.truthy then ("", [])
  else
    match telefone with
    | .str t =>
      let numeros := stripNonDigits t.data
      if numeros.length = 11 then
        (String.mk (replaceFirst [2, 5, 4] telefoneReplacement numeros),
          [.regexReplace, .regexReplace])
      else if numeros.length = 10 then
        (String.mk (replaceFirst [2, 4, 4] telefoneReplacement numeros),
          [.regexReplace, .regexReplace])
      else (t, [.regexReplace])
    | _ => ("", [])

/-- The source function `formatarTelefone`. -/
def formatarTelefone (telefone : JSVal) : String :=
  (formatarTelefoneTraced telefone).1

/-- The function `formatarData` with the list of host operations it evaluated. -/
def formatarDataTraced (h : Host) (dataString : JSVal) : String × List HostCall :=
  if !dataString.truthy then ("", [])
  else
    match dataString with
    | .str s =>
      match h.dateParse s with
      | none => ("", [.dateParse])
      | some data =>
        let dia := padStart 2 '0' (toString (getDate h data))
        let mes := padStart 2 '0' (toString (getMonth h data + 1))
        let ano := getFullYear h data
        (dia ++ "/" ++ mes ++ "/" ++ toString ano, [.dateParse])
    | _ => ("", [])

/-- The source function `formatarData`. -/
def formatarData (h : Host) (dataString : JSVal) : String :=
  (formatarDataTraced h dataString).1

/-! ## The counter animation -/

/-- An element of class `stat-number`: its `data-count` attribute (`none` when
missing) and its text. -/
structure Counter where
  dataCount : Option String
  textContent : String
  deriving DecidableEq, Repr

/-- The constant `duration` of `animateCounters`, in milliseconds. -/
def duration : ℚ := 2000

/-- The value `progress` of `updateCounter`: `Math.min(elapsed / duration, 1)`. -/
def progressAt (h : Host) (elapsed : ℚ) : ℚ :=
  min (h.round (elapsed / duration)) 1

/-- The value `current` of `updateCounter`: `Math.floor(progress * target)`,
which is `NaN` when the target is. -/
def currentAt (h : Host) (progress : ℚ) (target : Option ℤ) : Option ℤ :=
  target.map fun n => ⌊h.round (progress * (n : ℚ))⌋

/-- The value displayed for an integer target `n` after `e` milliseconds:
`floor(min(e / 2000, 1) * n)`. -/
def displayed (h : Host) (e : ℚ) (n : ℤ) : ℤ :=
  ⌊h.round (progressAt h e * (n : ℚ))⌋

/-- The first pass of `updateCounter` over one counter. -/
def writeCurrent (h : Host) (progress : ℚ) (counter : Counter) : Counter :=
  let target := h.parseInt counter.dataCount
  let current := currentAt h progress target
  { counter with textContent := h.toLocaleString current }

/-- The final pass of `updateCounter` over one counter. -/
def writeTarget (h : Host) (counter : Counter) : Counter :=
  let target := h.parseInt counter.dataCount
  { counter with textContent := h.toLocaleString target }

/-- The frame callback `updateCounter` of `animateCounters`, started at
`startTime`: the counters after the frame, and whether another frame was
requested. -/
def updateCounter (h : Host) (startTime : ℚ) (counters : List Counter) (timestamp : ℚ) :
    List Counter × Bool :=
  let elapsed := h.round (timestamp - startTime)
  let progress := progressAt h elapsed
  let counters := counters.map (writeCurrent h progress)
  if progress < 1 then (counters, true)
  else (counters.map (writeTarget h), false)

/-- The frame callback `updateCounter` with its `else` branch (the final pass
that writes the targets) taken out: the variant the final pass is compared
with. -/
def updateCounterWithoutElse (h : Host) (startTime : ℚ) (counters : List Counter)
    (timestamp : ℚ) : List Counter × Bool :=
  let elapsed := h.round (timestamp - startTime)
  let progress := progressAt h elapsed
  let counters := counters.map (writeCurrent h progress)
  if progress < 1 then (counters, true)
  else (counters, false)

/-! ## The visibility trigger -/

/-- An `IntersectionObserverEntry`, as far as the callback reads it. -/
structure Entry where
  isIntersecting : Bool
  deriving DecidableEq, Repr

/-- The state the observer callback works on: the latch `animated` of the
`DOMContentLoaded` handler and the number of calls of `animateCounters` made
so far. -/
structure ObserverState where
  animated : Bool
  animateCalls : Nat
  deriving DecidableEq, Repr

/-- The state when the handler has run `let animated = false`. -/
def ObserverState.initial : ObserverState :=
  { animated := false, animateCalls := 0 }

/-- The body of `entries.forEach` in the observer callback, on one entry. -/
def onEntry (s : ObserverState) (entry : Entry) : ObserverState :=
  if entry.isIntersecting && !s.animated then
    { animated := true, animateCalls := s.animateCalls + 1 }
  else s

/-- The observer callback on the entries of one notification. -/
def observerCallback (s : ObserverState) (entries : List Entry) : ObserverState :=
  entries.foldl onEntry s

/-- A sequence of notifications delivered to the observer callback, from a
given state. -/
def runCallbacks (s : ObserverState) (callbacks : List (List Entry)) : ObserverState :=
  callbacks.foldl observerCallback s

/-! ## The confirmation guard -/

/-- A click event, as far as the guard touches it. -/
structure ClickEvent where
  cancelable : Bool
  defaultPrevented : Bool
  deriving DecidableEq, Repr

/-- The method `Event.prototype.preventDefault`: a cancelable event is marked as
cancelled. -/
def ClickEvent.preventDefault (e : ClickEvent) : ClickEvent :=
  { e with defaultPrevented := e.defaultPrevented || e.cancelable }

/-- What the click listener does to its surroundings: a prompt shown with
`confirm`, or a call of `preventDefault` on the event. -/
inductive GuardCall where
  | confirm : String → GuardCall
  | preventDefault : GuardCall
  deriving DecidableEq, Repr

/-- The text of the prompt. -/
def confirmMessage : String := "Tem certeza que deseja realizar esta ação?"

/-- The click listener attached to the elements with `data-confirm`; `confirm`
is the host's prompt, which returns what the user chose. The result is the
event after the listener and the calls the listener made, in order. -/
def confirmListener (confirm : String → Bool) (e : ClickEvent) : ClickEvent × List GuardCall :=
  if !confirm confirmMessage then
    (e.preventDefault, [.confirm confirmMessage, .preventDefault])
  else (e, [.confirm confirmMessage])

/-! ## The page initializer -/

/-- An element of the page, as far as the initializer reads and writes it:
whether it carries `data-format-cpf`, `data-format-telefone` and
`data-confirm`, the value of `data-format-data` (`none` when the attribute is
missing), and its text. The elements the initializer formats hold text only. -/
structure Element where
  formatCpf : Bool
  formatTelefone : Bool
  formatData : Option String
  dataConfirm : Bool
  textContent : String
  deriving DecidableEq, Repr

/-- The characters `String.prototype.trim` removes: the white space and line
terminators of ECMA-262. -/
def isTrimmed (c : Char) : Bool :=
  c.val = 0x09 || c.val = 0x0A || c.val = 0x0B || c.val = 0x0C || c.val = 0x0D ||
  c.val = 0x20 || c.val = 0xA0 || c.val = 0x1680 ||
  (0x2000 ≤ c.val && c.val ≤ 0x200A) ||
  c.val = 0x2028 || c.val = 0x2029 || c.val = 0x202F || c.val = 0x205F ||
  c.val = 0x3000 || c.val = 0xFEFF

/-- The method `String.prototype.trim`: white space is removed at both ends. -/
def trim (s : String) : String :=
  String.mk ((s.data.dropWhile isTrimmed).reverse.dropWhile isTrimmed).reverse

/-- The callback of the `[data-format-cpf]` loop, or nothing on an element the
selector does not match. -/
def formatCpfElement (element : Element) : Element :=
  if element.formatCpf then
    let cpf := trim element.textContent
    if (JSVal.str cpf).truthy then
      { element with textContent := formatarCPF (.str cpf) }
    else element
  else element

/-- The callback of the `[data-format-telefone]` loop, or nothing on an element
the selector does not match. -/
def formatTelefoneElement (element : Element) : Element :=
  if element.formatTelefone then
    let telefone := trim element.textContent
    if (JSVal.str telefone).truthy then
      { element with textContent := formatarTelefone (.str telefone) }
    else element
  else element

/-- The callback of the `[data-format-data]` loop, or nothing on an element the
selector does not match. -/
def formatDataElement (h : Host) (element : Element) : Element :=
  match element.formatData with
  | some data =>
    if (JSVal.str data).truthy then
      { element with textContent := formatarData h (.str data) }
    else element
  | none => element

/-- The three formatting loops of the `DOMContentLoaded` handler, in the order
of the source, over the elements of the page. -/
def formatPage (h : Host) (page : List Element) : List Element :=
  ((page.map formatCpfElement).map formatTelefoneElement).map (formatDataElement h)

/-- A click on an element after the handler has run: the listener is there on
the elements that carried `data-confirm`, and on no other. -/
def click (confirm : String → Bool) (element : Element) (e : ClickEvent) :
    ClickEvent × List GuardCall :=
  if element.dataConfirm then confirmListener confirm e
  else (e, [])

/-! ## Sample hosts -/

/-- The value of a run of decimal digits. -/
def decimalValue (ds : List Char) : ℤ :=
  ds.foldl (fun a c => 10 * a + digitVal c) 0

/-- The function `parseInt` on decimal text: leading white space is skipped, a
sign is read, and the digits that follow are the value; text without a digit
there is `NaN`. -/
def parseIntDecimal (a : Option String) : Option ℤ :=
  match a with
  | none => none
  | some s =>
    let body := s.data.dropWhile Char.isWhitespace
    let (neg, body) :=
      match body with
      | '-' :: r => (true, r)
      | '+' :: r => (false, r)
      | r => (false, r)
    let ds := body.takeWhile Char.isDigit
    if ds.isEmpty then none
    else some (if neg then - decimalValue ds else decimalValue ds)

/-- Inserts a comma before every group of three digits, counted from the
right, in a reversed run of digits. -/
def groupReversed : List Char → List Char
  | a :: b :: c :: d :: rest => a :: b :: c :: ',' :: groupReversed (d :: rest)
  | ds => ds

/-- The method `Number.prototype.toLocaleString` in the locale `en-US`, on an integer or
`NaN`. -/
def toLocaleStringEnUS (n : Option ℤ) : String :=
  match n with
  | none => "NaN"
  | some i =>
    let digits := String.mk (groupReversed (toString i.natAbs).data.reverse).reverse
    if i < 0 then "-" ++ digits else digits

/-- A host in the time zone UTC-03:00 (for instance America/Sao_Paulo) with
the locale `en-US`, which reads ISO dates and decimal integers and computes
without rounding error. -/
def hostSaoPaulo : Host where
  dateParse := isoDateParse
  localTZA := fun _ => -10800000
  round := id
  parseInt := parseIntDecimal
  toLocaleString := toLocaleStringEnUS

/-- The same host in the time zone UTC. -/
def hostUTC : Host :=
  { hostSaoPaulo with localTZA := fun _ => 0 }

/-! ## Lemmas on the formatters -/

theorem truthy_str (s : String) : (JSVal.str s).truthy = true ↔ s ≠ "" := by
  rcases s with ⟨l⟩
  cases l <;> simp [JSVal.truthy, String.ext_iff]

theorem formatarCPF_str (s : String) (hs : s ≠ "") :
    formatarCPF (.str s) = String.mk (replaceFirst [3, 3, 3, 2] cpfReplacement s.data) := by
  have ht := (truthy_str s).2 hs
  simp [formatarCPF, formatarCPFTraced, ht]

theorem formatarTelefone_str (t : String) (ht : t ≠ "") :
    formatarTelefone (.str t) =
      if (stripNonDigits t.data).length = 11 then
        String.mk (replaceFirst [2, 5, 4] telefoneReplacement (stripNonDigits t.data))
      else if (stripNonDigits t.data).length = 10 then
        String.mk (replaceFirst [2, 4, 4] telefoneReplacement (stripNonDigits t.data))
      else t := by
  have h := (truthy_str t).2 ht
  simp only [formatarTelefone, formatarTelefoneTraced, h]
  split_ifs <;> simp_all

/-- What a match of `\d{k}` at the front says about the text. -/
theorem takeDigits_some {k : Nat} {s m r : List Char} (h : takeDigits k s = some (m, r)) :
    s = m ++ r ∧ m.length = k ∧ ∀ c ∈ m, c.isDigit = true := by
  induction k generalizing s m r with
  | zero =>
    simp [takeDigits] at h
    obtain ⟨rfl, rfl⟩ := h
    simp
  | succ k ih =>
    cases s with
    | nil => simp [takeDigits] at h
    | cons c cs =>
      simp only [takeDigits] at h
      split_ifs at h with hc
      split at h
      · rename_i m' r' hm
        simp at h
        obtain ⟨rfl, rfl⟩ := h
        obtain ⟨h1, h2, h3⟩ := ih hm
        refine ⟨by simp [h1], by simp [h2], ?_⟩
        intro x hx
        rcases List.mem_cons.1 hx with rfl | hx
        · exact hc
        · exact h3 x hx
      · simp at h

/-- What a match of the groups at the front says about the text: it starts
with as many digits as the groups hold together. -/
theorem matchGroups_some {ks : List Nat} {s : List Char} {gs : List (List Char)}
    {r : List Char} (h : matchGroups ks s = some (gs, r)) :
    s = gs.flatten ++ r ∧ gs.flatten.length = ks.sum ∧ ∀ c ∈ gs.flatten, c.isDigit = true := by
  induction ks generalizing s gs r with
  | nil =>
    simp [matchGroups] at h
    obtain ⟨rfl, rfl⟩ := h
    simp
  | cons k ks ih =>
    simp only [matchGroups] at h
    split at h
    · simp at h
    · rename_i g r1 hg
      split at h
      · simp at h
      · rename_i gs1 r2 hgs
        simp at h
        obtain ⟨rfl, rfl⟩ := h
        obtain ⟨a1, a2, a3⟩ := takeDigits_some hg
        obtain ⟨b1, b2, b3⟩ := ih hgs
        refine ⟨by simp [a1, b1], by simp [a2, b2], ?_⟩
        intro c hc
        simp only [List.flatten_cons, List.mem_append] at hc
        rcases hc with hc | hc
        · exact a3 c hc
        · exact b3 c hc

/-- A text in which the pattern matches nowhere is returned as it is. -/
theorem replaceFirst_of_no_match (ks : List Nat) (rep : List Piece) (s : List Char)
    (h : ∀ p q, s = p ++ q → matchGroups ks q = none) : replaceFirst ks rep s = s := by
  induction s with
  | nil =>
    have := h [] [] rfl
    simp [replaceFirst, this]
  | cons c cs ih =>
    have h0 := h [] (c :: cs) rfl
    simp only [replaceFirst, h0]
    congr 1
    apply ih
    intro p q hpq
    exact h (c :: p) q (by simp [hpq])

/-- A non-empty string the host's parser rejects is formatted as the empty
string. -/
theorem formatarData_unparseable_aux (h : Host) (u : String) (hu : u ≠ "")
    (hp : h.dateParse u = none) : formatarData h (.str u) = "" := by
  have ht := (truthy_str u).2 hu
  simp [formatarData, formatarDataTraced, ht, hp]

/-! ## The identifier formatter -/

/-- C1: a string of exactly 11 ASCII digits `d1..d11` is formatted as the 14
characters `d1d2d3.d4d5d6.d7d8d9-d10d11`; `"12345678901"` becomes
`"123.456.789-01"`. -/
theorem formatarCPF_eleven_digits (d1 d2 d3 d4 d5 d6 d7 d8 d9 d10 d11 : Char)
    (hd : ∀ c ∈ [d1, d2, d3, d4, d5, d6, d7, d8, d9, d10, d11], c.isDigit = true) :
    formatarCPF (.str (String.mk [d1, d2, d3, d4, d5, d6, d7, d8, d9, d10, d11])) =
        String.mk [d1, d2, d3, '.', d4, d5, d6, '.', d7, d8, d9, '-', d10, d11] ∧
      (formatarCPF (.str (String.mk [d1, d2, d3, d4, d5, d6, d7, d8, d9, d10, d11]))).length
        = 14 ∧
      formatarCPF (.str "12345678901") = "123.456.789-01" := by
  simp only [List.mem_cons, List.mem_singleton, forall_eq_or_imp, forall_eq, List.not_mem_nil,
    false_implies, implies_true, and_true] at hd
  obtain ⟨h1, h2, h3, h4, h5, h6, h7, h8, h9, h10, h11⟩ := hd
  have key : formatarCPF (.str (String.mk [d1, d2, d3, d4, d5, d6, d7, d8, d9, d10, d11])) =
      String.mk [d1, d2, d3, '.', d4, d5, d6, '.', d7, d8, d9, '-', d10, d11] := by
    simp [formatarCPF, formatarCPFTraced, JSVal.truthy, replaceFirst, matchGroups, takeDigits,
      expand, cpfReplacement, h1, h2, h3, h4, h5, h6, h7, h8, h9, h10, h11]
  refine ⟨key, ?_, by decide⟩
  rw [key]
  rfl

theorem formatarCPF_eleven_digits_witness :
    (∀ c ∈ ['5', '2', '9', '9', '8', '2', '2', '4', '7', '2', '5'], c.isDigit = true) ∧
      formatarCPF (.str (String.mk ['5', '2', '9', '9', '8', '2', '2', '4', '7', '2', '5'])) =
        String.mk ['5', '2', '9', '.', '9', '8', '2', '.', '2', '4', '7', '-', '2', '5'] :=
  ⟨by decide,
    (formatarCPF_eleven_digits '5' '2' '9' '9' '8' '2' '2' '4' '7' '2' '5' (by decide)).1⟩

/-- C6: a non-empty string without a run of 11 consecutive ASCII digits is
returned unchanged by `formatarCPF`; `"123"` stays `"123"`. -/
theorem formatarCPF_no_digit_run (s : String) (hs : s ≠ "")
    (hrun : ¬ ∃ p d q : List Char,
      s.data = p ++ d ++ q ∧ d.length = 11 ∧ ∀ c ∈ d, c.isDigit = true) :
    formatarCPF (.str s) = s ∧ formatarCPF (.str "123") = "123" := by
  refine ⟨?_, by decide⟩
  rw [formatarCPF_str s hs, replaceFirst_of_no_match]
  intro p q hpq
  cases hm : matchGroups [3, 3, 3, 2] q with
  | none => rfl
  | some res =>
    obtain ⟨gs, r⟩ := res
    obtain ⟨a1, a2, a3⟩ := matchGroups_some hm
    exact absurd ⟨p, gs.flatten, r, by rw [hpq, a1, List.append_assoc], by simpa using a2, a3⟩ hrun

theorem formatarCPF_no_digit_run_witness :
    "529.982" ≠ "" ∧
      (¬ ∃ p d q : List Char,
        "529.982".data = p ++ d ++ q ∧ d.length = 11 ∧ ∀ c ∈ d, c.isDigit = true) ∧
      formatarCPF (.str "529.982") = "529.982" := by
  have hrun : ¬ ∃ p d q : List Char,
      "529.982".data = p ++ d ++ q ∧ d.length = 11 ∧ ∀ c ∈ d, c.isDigit = true := by
    rintro ⟨p, d, q, h1, h2, -⟩
    have hlen := congrArg List.length h1
    have h7 : ("529.982".data).length = 7 := by decide
    simp only [List.length_append, h2, h7] at hlen
    omega
  exact ⟨by decide, hrun, (formatarCPF_no_digit_run "529.982" (by decide) hrun).1⟩

/-! ## The phone formatter -/

/-- C2: when the ASCII digits of `t`, in order, are exactly the eleven digits
`d1..d11`, `formatarTelefone(t)` is `(d1d2) d3d4d5d6d7-d8d9d10d11`, built from
the digits alone; `"11987654321"` becomes `"(11) 98765-4321"`. -/
theorem formatarTelefone_eleven_digits (t : String)
    (d1 d2 d3 d4 d5 d6 d7 d8 d9 d10 d11 : Char)
    (hd : t.data.filter Char.isDigit = [d1, d2, d3, d4, d5, d6, d7, d8, d9, d10, d11]) :
    formatarTelefone (.str t) =
        String.mk ['(', d1, d2, ')', ' ', d3, d4, d5, d6, d7, '-', d8, d9, d10, d11] ∧
      formatarTelefone (.str "11987654321") = "(11) 98765-4321" := by
  refine ⟨?_, by decide⟩
  have hne : t ≠ "" := by
    rintro rfl
    simp at hd
  have hdig : ∀ c ∈ [d1, d2, d3, d4, d5, d6, d7, d8, d9, d10, d11], c.isDigit = true := by
    intro c hc
    rw [← hd] at hc
    exact (List.mem_filter.1 hc).2
  simp only [List.mem_cons, List.mem_singleton, forall_eq_or_imp, forall_eq, List.not_mem_nil,
    false_implies, implies_true, and_true] at hdig
  obtain ⟨h1, h2, h3, h4, h5, h6, h7, h8, h9, h10, h11⟩ := hdig
  rw [formatarTelefone_str t hne]
  simp [stripNonDigits, hd, replaceFirst, matchGroups, takeDigits, expand, telefoneReplacement,
    h1, h2, h3, h4, h5, h6, h7, h8, h9, h10, h11]

theorem formatarTelefone_eleven_digits_witness :
    "+55 (11) 98765-43".data.filter Char.isDigit
        = ['5', '5', '1', '1', '9', '8', '7', '6', '5', '4', '3'] ∧
      formatarTelefone (.str "+55 (11) 98765-43") =
        String.mk ['(', '5', '5', ')', ' ', '1', '1', '9', '8', '7', '-', '6', '5', '4', '3'] :=
  ⟨by decide,
    (formatarTelefone_eleven_digits "+55 (11) 98765-43"
      '5' '5' '1' '1' '9' '8' '7' '6' '5' '4' '3' (by decide)).1⟩

/-- C3: when the ASCII digits of `t`, in order, are exactly the ten digits
`d1..d10`, `formatarTelefone(t)` is `(d1d2) d3d4d5d6-d7d8d9d10`, built from
the digits alone; `"1198765432"` becomes `"(11) 9876-5432"`. -/
theorem formatarTelefone_ten_digits (t : String)
    (d1 d2 d3 d4 d5 d6 d7 d8 d9 d10 : Char)
    (hd : t.data.filter Char.isDigit = [d1, d2, d3, d4, d5, d6, d7, d8, d9, d10]) :
    formatarTelefone (.str t) =
        String.mk ['(', d1, d2, ')', ' ', d3, d4, d5, d6, '-', d7, d8, d9, d10] ∧
      formatarTelefone (.str "1198765432") = "(11) 9876-5432" := by
  refine ⟨?_, by decide⟩
  have hne : t ≠ "" := by
    rintro rfl
    simp at hd
  have hdig : ∀ c ∈ [d1, d2, d3, d4, d5, d6, d7, d8, d9, d10], c.isDigit = true := by
    intro c hc
    rw [← hd] at hc
    exact (List.mem_filter.1 hc).2
  simp only [List.mem_cons, List.mem_singleton, forall_eq_or_imp, forall_eq, List.not_mem_nil,
    false_implies, implies_true, and_true] at hdig
  obtain ⟨h1, h2, h3, h4, h5, h6, h7, h8, h9, h10⟩ := hdig
  rw [formatarTelefone_str t hne]
  simp [stripNonDigits, hd, replaceFirst, matchGroups, takeDigits, expand, telefoneReplacement,
    h1, h2, h3, h4, h5, h6, h7, h8, h9, h10]

theorem formatarTelefone_ten_digits_witness :
    "11 3456-7890".data.filter Char.isDigit
        = ['1', '1', '3', '4', '5', '6', '7', '8', '9', '0'] ∧
      formatarTelefone (.str "11 3456-7890") =
        String.mk ['(', '1', '1', ')', ' ', '3', '4', '5', '6', '-', '7', '8', '9', '0'] :=
  ⟨by decide,
    (formatarTelefone_ten_digits "11 3456-7890"
      '1' '1' '3' '4' '5' '6' '7' '8' '9' '0' (by decide)).1⟩

/-- C5: a non-empty string whose number of ASCII digits is neither 10 nor 11
is returned by `formatarTelefone` as it was given, non-digit characters
included; `"123"` stays `"123"`. -/
theorem formatarTelefone_other_count (t : String) (ht : t ≠ "")
    (h10 : t.data.countP Char.isDigit ≠ 10) (h11 : t.data.countP Char.isDigit ≠ 11) :
    formatarTelefone (.str t) = t ∧ formatarTelefone (.str "123") = "123" := by
  refine ⟨?_, by decide⟩
  rw [List.countP_eq_length_filter] at h10 h11
  rw [formatarTelefone_str t ht]
  simp [stripNonDigits, h10, h11]

theorem formatarTelefone_other_count_witness :
    "(11) 9876-543" ≠ "" ∧ "(11) 9876-543".data.countP Char.isDigit ≠ 10 ∧
      "(11) 9876-543".data.countP Char.isDigit ≠ 11 ∧
      formatarTelefone (.str "(11) 9876-543") = "(11) 9876-543" :=
  ⟨by decide, by decide, by decide,
    (formatarTelefone_other_count "(11) 9876-543" (by decide) (by decide) (by decide)).1⟩

/-! ## The date formatter -/

/-- C7: a non-empty string that the host's date parser turns into the invalid
date (time value `NaN`) is formatted as the empty string, in every host;
`"not-a-date"` gives `""`. -/
theorem formatarData_unparseable (h : Host) (s : String) (hs : s ≠ "")
    (hnan : h.dateParse s = none) :
    formatarData h (.str s) = "" ∧
      (h.dateParse "not-a-date" = none → formatarData h (.str "not-a-date") = "") := by
  have key : ∀ u : String, u ≠ "" → h.dateParse u = none → formatarData h (.str u) = "" := by
    intro u hu hp
    have ht := (truthy_str u).2 hu
    simp [formatarData, formatarDataTraced, ht, hp]
  exact ⟨key s hs hnan, key "not-a-date" (by decide)⟩

theorem formatarData_unparseable_witness :
    "not-a-date" ≠ "" ∧ hostSaoPaulo.dateParse "not-a-date" = none ∧
      formatarData hostSaoPaulo (.str "not-a-date") = "" :=
  ⟨by decide, by decide,
    (formatarData_unparseable hostSaoPaulo "not-a-date" (by decide) (by decide)).1⟩

/-! ## Falsy arguments -/

/-- On a non-empty string each formatter does evaluate its host operations:
one replacement in `formatarCPF`, the stripping replacement in
`formatarTelefone`, one date parsing in `formatarData`. -/
theorem traces_of_nonempty (h : Host) (s : String) (hs : s ≠ "") :
    (formatarCPFTraced (.str s)).2 = [.regexReplace] ∧
      HostCall.regexReplace ∈ (formatarTelefoneTraced (.str s)).2 ∧
      (formatarDataTraced h (.str s)).2 = [.dateParse] := by
  have ht := (truthy_str s).2 hs
  refine ⟨by simp [formatarCPFTraced, ht], ?_, ?_⟩
  · simp only [formatarTelefoneTraced, ht, Bool.not_true, Bool.false_eq_true, if_false]
    split_ifs <;> simp
  · simp only [formatarDataTraced, ht, Bool.not_true, Bool.false_eq_true, if_false]
    cases h.dateParse s <;> simp

/-- C8: given the empty string, `null` or `undefined`, each of `formatarCPF`,
`formatarTelefone` and `formatarData` returns the empty string and evaluates
no pattern and parses no date, in every host. -/
theorem formatters_falsy (h : Host) (v : JSVal)
    (hv : v = .str "" ∨ v = .null ∨ v = .undefined) :
    formatarCPF v = "" ∧ formatarTelefone v = "" ∧ formatarData h v = "" ∧
      (formatarCPFTraced v).2 = [] ∧ (formatarTelefoneTraced v).2 = [] ∧
      (formatarDataTraced h v).2 = [] := by
  rcases hv with rfl | rfl | rfl <;>
    simp [formatarCPF, formatarTelefone, formatarData, formatarCPFTraced,
      formatarTelefoneTraced, formatarDataTraced, JSVal.truthy]

theorem formatters_falsy_witness :
    formatarCPF (.str "") = "" ∧ formatarTelefone (.str "") = "" ∧
      formatarData hostSaoPaulo (.str "") = "" ∧
      (formatarCPFTraced (.str "")).2 = [] ∧ (formatarTelefoneTraced (.str "")).2 = [] ∧
      (formatarDataTraced hostSaoPaulo (.str "")).2 = [] :=
  formatters_falsy hostSaoPaulo (.str "") (Or.inl rfl)

/-! ## The counter animation -/

/-- Once the elapsed time has reached the duration, `progress` is `1`. -/
theorem progressAt_of_duration_le (h : Host) (hmono : Monotone h.round)
    (hone : h.round 1 = 1) (e : ℚ) (he : 2000 ≤ e) : progressAt h e = 1 := by
  have h1 : (1 : ℚ) ≤ e / duration := by
    rw [duration, le_div_iff₀ (by norm_num)]
    linarith
  have h2 : (1 : ℚ) ≤ h.round (e / duration) := by
    have := hmono h1
    rwa [hone] at this
  simp [progressAt, h2]

/-- C9: on a frame whose elapsed time is at least the 2000 ms of the duration,
`updateCounter` requests no further frame, and every counter whose target
parses as the integer `n` displays `n` rendered with `toLocaleString`, its
attribute untouched. The host's rounding is monotone and exact at `1`. -/
theorem updateCounter_final (h : Host) (hmono : Monotone h.round) (hone : h.round 1 = 1)
    (startTime timestamp : ℚ) (counters : List Counter)
    (helapsed : 2000 ≤ h.round (timestamp - startTime)) :
    (updateCounter h startTime counters timestamp).2 = false ∧
      (updateCounter h startTime counters timestamp).1.length = counters.length ∧
      ∀ (i : Nat) (c : Counter) (n : ℤ), counters[i]? = some c →
        h.parseInt c.dataCount = some n →
        (updateCounter h startTime counters timestamp).1[i]? =
          some { dataCount := c.dataCount, textContent := h.toLocaleString (some n) } := by
  have hp := progressAt_of_duration_le h hmono hone _ helapsed
  simp only [updateCounter, hp, lt_irrefl, if_false]
  refine ⟨trivial, by simp, ?_⟩
  intro i c n hi hn
  simp [List.getElem?_map, hi, writeTarget, writeCurrent, hn]

theorem updateCounter_final_witness :
    Monotone hostSaoPaulo.round ∧ hostSaoPaulo.round 1 = 1 ∧
      (2000 : ℚ) ≤ hostSaoPaulo.round (2500 - 100) ∧
      (updateCounter hostSaoPaulo 100 [⟨some "1000", "987"⟩] 2500).2 = false ∧
      (updateCounter hostSaoPaulo 100 [⟨some "1000", "987"⟩] 2500).1[0]? =
        some { dataCount := some "1000", textContent := "1,000" } := by
  have hm : Monotone hostSaoPaulo.round := monotone_id
  have he : (2000 : ℚ) ≤ hostSaoPaulo.round (2500 - 100) := by
    norm_num [hostSaoPaulo]
  have key := updateCounter_final hostSaoPaulo hm rfl 100 2500 [⟨some "1000", "987"⟩] he
  exact ⟨hm, rfl, he, key.1, key.2.2 0 ⟨some "1000", "987"⟩ 1000 rfl (by decide)⟩

/-- C10: with `displayed(e, n) = floor(min(e / 2000, 1) * n)`, the value that
`updateCounter` computes as `current`, a target `n ≥ 0` and elapsed times
`0 ≤ e1 ≤ e2` give `displayed(e1, n) ≤ displayed(e2, n)`, in every host whose
rounding is monotone; and `displayed(1000, 1000) = 500` when `1/2` and `500`
are represented exactly. -/
theorem displayed_mono (h : Host) (hmono : Monotone h.round) (n : ℤ) (hn : 0 ≤ n)
    (e1 e2 : ℚ) (_h0 : 0 ≤ e1) (h12 : e1 ≤ e2) :
    displayed h e1 n ≤ displayed h e2 n ∧
      currentAt h (progressAt h e1) (some n) = some (displayed h e1 n) ∧
      (h.round (1 / 2) = 1 / 2 → h.round 500 = 500 → displayed h 1000 1000 = 500) := by
  refine ⟨?_, rfl, ?_⟩
  · have hp : progressAt h e1 ≤ progressAt h e2 := by
      unfold progressAt
      apply min_le_min_right
      apply hmono
      exact div_le_div_of_nonneg_right h12 (by norm_num [duration])
    have hq : (0 : ℚ) ≤ (n : ℚ) := by exact_mod_cast hn
    exact Int.floor_mono (hmono (mul_le_mul_of_nonneg_right hp hq))
  · intro ha hb
    have e : (1000 : ℚ) / duration = 1 / 2 := by norm_num [duration]
    have e2 : (1 : ℚ) / 2 * ((1000 : ℤ) : ℚ) = 500 := by norm_num
    have e3 : min (1 / 2 : ℚ) 1 = 1 / 2 := by norm_num
    simp only [displayed, progressAt, e, ha, e3, e2, hb]
    norm_num

theorem displayed_mono_witness :
    Monotone hostSaoPaulo.round ∧ displayed hostSaoPaulo 1000 1000 = 500 ∧
      displayed hostSaoPaulo 1000 1000 ≤ displayed hostSaoPaulo 1001 1000 := by
  have hm : Monotone hostSaoPaulo.round := monotone_id
  have key := displayed_mono hostSaoPaulo hm 1000 (by decide) 1000 1001 (by norm_num)
    (by norm_num)
  exact ⟨hm, key.2.2 rfl rfl, key.1⟩

/-! ## The date formatter and the host's time zone -/

/-- The first day of a year comes before the first day of the next. -/
theorem DayFromYear_lt_succ (y : ℤ) : DayFromYear y < DayFromYear (y + 1) := by
  unfold DayFromYear
  omega

/-- The day of a time value lies in the year `YearFromTime` returns. -/
theorem YearFromTime_day (t : ℤ) :
    DayFromYear (YearFromTime t) ≤ Day t ∧ Day t < DayFromYear (YearFromTime t + 1) := by
  unfold YearFromTime
  generalize Day t = d
  simp only
  unfold DayFromYear
  split_ifs with h1 h2
  · constructor <;> omega
  · constructor <;> omega
  · have e : 1970 + 400 * d / 146097 - 1 + 1 = 1970 + 400 * d / 146097 := by ring
    rw [e]
    constructor <;> omega

/-- The function `YearFromTime` meets its definition in ECMA-262: the time value lies
in the year it returns. -/
theorem YearFromTime_spec (t : ℤ) :
    TimeFromYear (YearFromTime t) ≤ t ∧ t < TimeFromYear (YearFromTime t + 1) := by
  obtain ⟨h1, h2⟩ := YearFromTime_day t
  unfold TimeFromYear
  generalize DayFromYear (YearFromTime t) = a at *
  generalize DayFromYear (YearFromTime t + 1) = b at *
  unfold Day msPerDay at *
  constructor <;> omega

/-- A year has `DaysInYear` days. -/
theorem DayFromYear_succ (y : ℤ) : DayFromYear (y + 1) = DayFromYear y + DaysInYear y := by
  unfold DayFromYear DaysInYear
  split_ifs <;> omega

theorem DayFromYear_strictMono : StrictMono DayFromYear :=
  strictMono_int_of_lt_succ DayFromYear_lt_succ

/-- The year of a time value is the only year its day lies in. -/
theorem YearFromTime_eq (t y : ℤ) (h1 : DayFromYear y ≤ Day t)
    (h2 : Day t < DayFromYear (y + 1)) : YearFromTime t = y := by
  obtain ⟨a, b⟩ := YearFromTime_day t
  have hle : YearFromTime t < y + 1 := DayFromYear_strictMono.lt_iff_lt.1 (lt_of_le_of_lt a h2)
  have hge : y < YearFromTime t + 1 := DayFromYear_strictMono.lt_iff_lt.1 (lt_of_le_of_lt h1 b)
  omega

/-- The tables of `MonthFromTime`, `DateFromTime` and `daysBeforeMonth` agree:
a day `d` of a year lies `DateFromTime - 1` days after the start of its
month. -/
theorem month_tables (d l m : ℤ)
    (hm : m = if d < 31 then 0 else if d < 59 + l then 1 else if d < 90 + l then 2
      else if d < 120 + l then 3 else if d < 151 + l then 4 else if d < 181 + l then 5
      else if d < 212 + l then 6 else if d < 243 + l then 7 else if d < 273 + l then 8
      else if d < 304 + l then 9 else if d < 334 + l then 10 else 11) :
    (0 ≤ m ∧ m ≤ 11) ∧
    (if m = 0 then 0 else if m = 1 then 31 else if m = 2 then 59 + l
      else if m = 3 then 90 + l else if m = 4 then 120 + l else if m = 5 then 151 + l
      else if m = 6 then 181 + l else if m = 7 then 212 + l else if m = 8 then 243 + l
      else if m = 9 then 273 + l else if m = 10 then 304 + l else 334 + l) +
    (if m = 0 then d + 1 else if m = 1 then d - 30 else if m = 2 then d - 58 - l
      else if m = 3 then d - 89 - l else if m = 4 then d - 119 - l
      else if m = 5 then d - 150 - l else if m = 6 then d - 180 - l
      else if m = 7 then d - 211 - l else if m = 8 then d - 242 - l
      else if m = 9 then d - 272 - l else if m = 10 then d - 303 - l else d - 333 - l) - 1
      = d := by
  omega

/-- The day of the month, the month and the year of a time value determine its
day number (the identity behind `MakeDay` in ECMA-262). -/
theorem MakeDay_of_fields (t : ℤ) :
    MakeDay (YearFromTime t) (MonthFromTime t) (DateFromTime t) = Day t := by
  obtain ⟨⟨h0, h11⟩, key⟩ :=
    month_tables (DayWithinYear t) (InLeapYear t) (MonthFromTime t) rfl
  have e1 : MonthFromTime t / 12 = 0 := by omega
  have e2 : MonthFromTime t % 12 = MonthFromTime t := by omega
  unfold MakeDay
  simp only [e1, e2, add_zero]
  unfold daysBeforeMonth DateFromTime
  simp only
  have e3 : (if DaysInYear (YearFromTime t) = 366 then (1 : ℤ) else 0) = InLeapYear t := rfl
  rw [e3]
  have e4 : DayWithinYear t = Day t - DayFromYear (YearFromTime t) := rfl
  rw [e4] at key ⊢
  linarith

/-- Where a valid day `d` of month `m` lies within its year, for `l = 1` in a
leap year and `l = 0` otherwise: the tables of `daysBeforeMonth`,
`DaysInMonth`, `MonthFromTime` and `DateFromTime` agree. -/
theorem month_tables_inv (l m d w : ℤ) (hl : l = 0 ∨ l = 1) (hm1 : 1 ≤ m) (hm12 : m ≤ 12)
    (hd1 : 1 ≤ d)
    (hd : d ≤ if m = 2 then (if l = 1 then 29 else 28)
      else if m = 4 ∨ m = 6 ∨ m = 9 ∨ m = 11 then 30 else 31)
    (hw : w = (if m - 1 = 0 then 0 else if m - 1 = 1 then 31 else if m - 1 = 2 then 59 + l
      else if m - 1 = 3 then 90 + l else if m - 1 = 4 then 120 + l
      else if m - 1 = 5 then 151 + l else if m - 1 = 6 then 181 + l
      else if m - 1 = 7 then 212 + l else if m - 1 = 8 then 243 + l
      else if m - 1 = 9 then 273 + l else if m - 1 = 10 then 304 + l else 334 + l) + d - 1) :
    (0 ≤ w ∧ w < 365 + l) ∧
    (if w < 31 then 0 else if w < 59 + l then 1 else if w < 90 + l then 2
      else if w < 120 + l then 3 else if w < 151 + l then 4 else if w < 181 + l then 5
      else if w < 212 + l then 6 else if w < 243 + l then 7 else if w < 273 + l then 8
      else if w < 304 + l then 9 else if w < 334 + l then 10 else 11) = m - 1 ∧
    (if m - 1 = 0 then w + 1 else if m - 1 = 1 then w - 30 else if m - 1 = 2 then w - 58 - l
      else if m - 1 = 3 then w - 89 - l else if m - 1 = 4 then w - 119 - l
      else if m - 1 = 5 then w - 150 - l else if m - 1 = 6 then w - 180 - l
      else if m - 1 = 7 then w - 211 - l else if m - 1 = 8 then w - 242 - l
      else if m - 1 = 9 then w - 272 - l else if m - 1 = 10 then w - 303 - l
      else w - 333 - l) = d := by
  interval_cases m <;> norm_num at hd hw ⊢ <;> rcases hl with rfl | rfl <;>
    norm_num at hd hw ⊢ <;> omega

/-- The year, month and day of the month of a time value whose day number is
that of the calendar date `y`-`m`-`d`. -/
theorem fields_of_MakeDay (t y m d : ℤ) (hm1 : 1 ≤ m) (hm12 : m ≤ 12) (hd1 : 1 ≤ d)
    (hd : d ≤ DaysInMonth y m) (hD : Day t = MakeDay y (m - 1) d) :
    YearFromTime t = y ∧ MonthFromTime t = m - 1 ∧ DateFromTime t = d := by
  have e1 : (m - 1) / 12 = 0 := by omega
  have e2 : (m - 1) % 12 = m - 1 := by omega
  obtain ⟨l, hl, hly, hl366⟩ : ∃ l : ℤ, (l = 0 ∨ l = 1) ∧ DaysInYear y = 365 + l ∧
      (if DaysInYear y = 366 then (1 : ℤ) else 0) = l := by
    have hy : DaysInYear y = 365 ∨ DaysInYear y = 366 := by
      unfold DaysInYear
      split_ifs <;> simp
    rcases hy with hy | hy
    · exact ⟨0, Or.inl rfl, by rw [hy]; rfl, by rw [hy]; rfl⟩
    · exact ⟨1, Or.inr rfl, by rw [hy]; rfl, by rw [hy]; rfl⟩
  have hl' : (DaysInYear y = 366) = (l = 1) := by
    rw [hly]
    apply propext
    constructor <;> intro <;> omega
  unfold MakeDay at hD
  simp only [e1, e2, add_zero] at hD
  unfold daysBeforeMonth at hD
  unfold DaysInMonth at hd
  simp only [hl366] at hD
  simp only [hl'] at hd
  obtain ⟨⟨w0, w1⟩, hmo, hda⟩ :=
    month_tables_inv l m d (Day t - DayFromYear y) hl hm1 hm12 hd1 hd (by rw [hD]; ring)
  have hsucc := DayFromYear_succ y
  have hyear : YearFromTime t = y := by
    apply YearFromTime_eq
    · omega
    · omega
  have hlt : InLeapYear t = l := by
    unfold InLeapYear
    rw [hyear, hl366]
  have hw : DayWithinYear t = Day t - DayFromYear y := by
    unfold DayWithinYear
    rw [hyear]
  have hmonth : MonthFromTime t = m - 1 := by
    unfold MonthFromTime
    simp only
    rw [hlt, hw]
    exact hmo
  refine ⟨hyear, hmonth, ?_⟩
  unfold DateFromTime
  simp only
  rw [hmonth, hlt, hw]
  exact hda

/-- In a host whose local time is at or ahead of UTC by less than a day, the
local year, month and day of the month of UTC midnight of a calendar date are
those of the date. -/
theorem local_fields_east (h : Host) (y m d : ℤ) (hm1 : 1 ≤ m) (hm12 : m ≤ 12)
    (hd1 : 1 ≤ d) (hd : d ≤ DaysInMonth y m)
    (h0 : 0 ≤ h.localTZA (MakeDate (MakeDay y (m - 1) d) 0))
    (h1 : h.localTZA (MakeDate (MakeDay y (m - 1) d) 0) < msPerDay) :
    getFullYear h (MakeDate (MakeDay y (m - 1) d) 0) = y ∧
      getMonth h (MakeDate (MakeDay y (m - 1) d) 0) + 1 = m ∧
      getDate h (MakeDate (MakeDay y (m - 1) d) 0) = d := by
  have hD : Day (LocalTime h (MakeDate (MakeDay y (m - 1) d) 0)) = MakeDay y (m - 1) d := by
    unfold LocalTime
    generalize h.localTZA (MakeDate (MakeDay y (m - 1) d) 0) = o at h0 h1
    unfold MakeDate Day
    generalize MakeDay y (m - 1) d = D
    unfold msPerDay at *
    omega
  obtain ⟨a, b, c⟩ := fields_of_MakeDay _ y m d hm1 hm12 hd1 hd hD
  exact ⟨a, by unfold getMonth; omega, c⟩

/-- In a host whose local time is behind UTC by at most a day, the local year,
month and day of the month of UTC midnight of a calendar date are never all
those of the date: local time is still in the day before. -/
theorem local_fields_west (h : Host) (y m d : ℤ)
    (h0 : h.localTZA (MakeDate (MakeDay y (m - 1) d) 0) < 0)
    (h1 : - msPerDay ≤ h.localTZA (MakeDate (MakeDay y (m - 1) d) 0)) :
    ¬ (getFullYear h (MakeDate (MakeDay y (m - 1) d) 0) = y ∧
      getMonth h (MakeDate (MakeDay y (m - 1) d) 0) + 1 = m ∧
      getDate h (MakeDate (MakeDay y (m - 1) d) 0) = d) := by
  rintro ⟨a, b, c⟩
  have hD : Day (LocalTime h (MakeDate (MakeDay y (m - 1) d) 0)) = MakeDay y (m - 1) d - 1 := by
    unfold LocalTime
    generalize h.localTZA (MakeDate (MakeDay y (m - 1) d) 0) = o at h0 h1
    unfold MakeDate Day
    generalize MakeDay y (m - 1) d = D
    unfold msPerDay at *
    omega
  have key := MakeDay_of_fields (LocalTime h (MakeDate (MakeDay y (m - 1) d) 0))
  unfold getFullYear at a
  unfold getMonth at b
  unfold getDate at c
  have b2 : MonthFromTime (LocalTime h (MakeDate (MakeDay y (m - 1) d) 0)) = m - 1 := by omega
  rw [a, b2, c, hD] at key
  omega

/-- C4: the ISO date `"2024-03-05"` is read as UTC midnight of that day and
formatted from the fields of local time: a host three hours behind UTC shows
`"04/03/2024"`, the day before, where a host at UTC shows `"05/03/2024"`. -/
theorem formatarData_behind_UTC :
    hostSaoPaulo.dateParse "2024-03-05" = some 1709596800000 ∧
      formatarData hostSaoPaulo (.str "2024-03-05") = "04/03/2024" ∧
      formatarData hostUTC (.str "2024-03-05") = "05/03/2024" := by
  decide

/-! ## More on the patterns -/

/-- A match of the groups captures one text per group. -/
theorem matchGroups_length {ks : List Nat} {s : List Char} {gs : List (List Char)}
    {r : List Char} (h : matchGroups ks s = some (gs, r)) : gs.length = ks.length := by
  induction ks generalizing s gs r with
  | nil =>
    simp [matchGroups] at h
    simp [h.1.symm]
  | cons k ks ih =>
    simp only [matchGroups] at h
    split at h
    · simp at h
    · split at h
      · simp at h
      · rename_i gs1 r2 hgs
        simp at h
        obtain ⟨rfl, rfl⟩ := h
        simp [ih hgs]

/-- A pattern that starts with a non-empty group of digits does not match at a
character that is not a digit: the search moves on. -/
theorem replaceFirst_skip (k : Nat) (ks : List Nat) (rep : List Piece) (p x : List Char)
    (hp : ∀ c ∈ p, c.isDigit = false) :
    replaceFirst ((k + 1) :: ks) rep (p ++ x) = p ++ replaceFirst ((k + 1) :: ks) rep x := by
  induction p with
  | nil => rfl
  | cons c p ih =>
    have hc : c.isDigit = false := hp c (List.mem_cons_self c p)
    have hm : matchGroups ((k + 1) :: ks) (c :: (p ++ x)) = none := by
      simp [matchGroups, takeDigits, hc]
    have e : replaceFirst ((k + 1) :: ks) rep (c :: (p ++ x)) =
        c :: replaceFirst ((k + 1) :: ks) rep (p ++ x) := by
      rw [replaceFirst, hm]
    rw [List.cons_append, e, ih (fun c hc => hp c (List.mem_cons_of_mem _ hc)), List.cons_append]

/-- A replacement that adds no digit and uses every group once, in order,
keeps the digits of the text. -/
theorem filter_replaceFirst (ks : List Nat) (rep : List Piece)
    (hrep : ∀ gs : List (List Char), gs.length = ks.length →
      (expand gs rep).filter Char.isDigit = gs.flatten.filter Char.isDigit)
    (s : List Char) :
    (replaceFirst ks rep s).filter Char.isDigit = s.filter Char.isDigit := by
  induction s with
  | nil =>
    simp only [replaceFirst]
    split
    · rename_i gs rest hm
      obtain ⟨a1, -, -⟩ := matchGroups_some hm
      rw [List.filter_append, hrep gs (matchGroups_length hm), ← List.filter_append, ← a1]
    · rfl
  | cons c cs ih =>
    simp only [replaceFirst]
    split
    · rename_i gs rest hm
      obtain ⟨a1, -, -⟩ := matchGroups_some hm
      rw [List.filter_append, hrep gs (matchGroups_length hm), ← List.filter_append, ← a1]
    · simp only [List.filter_cons, ih]

theorem expand_cpf_digits (gs : List (List Char)) (h : gs.length = [3, 3, 3, 2].length) :
    (expand gs cpfReplacement).filter Char.isDigit = gs.flatten.filter Char.isDigit := by
  rcases gs with _ | ⟨g1, _ | ⟨g2, _ | ⟨g3, _ | ⟨g4, _ | ⟨g5, gs⟩⟩⟩⟩⟩ <;> simp at h
  simp [expand, cpfReplacement, List.filter_cons]

theorem expand_telefone_digits (gs : List (List Char)) (h : gs.length = 3) :
    (expand gs telefoneReplacement).filter Char.isDigit = gs.flatten.filter Char.isDigit := by
  rcases gs with _ | ⟨g1, _ | ⟨g2, _ | ⟨g3, _ | ⟨g4, gs⟩⟩⟩⟩ <;> simp at h
  simp [expand, telefoneReplacement, List.filter_cons]

/-- A list of eleven elements, spelled out. -/
theorem eleven_elements {α : Type} (l : List α) (h : l.length = 11) :
    ∃ a1 a2 a3 a4 a5 a6 a7 a8 a9 a10 a11 : α,
      l = [a1, a2, a3, a4, a5, a6, a7, a8, a9, a10, a11] := by
  rcases l with _ | ⟨a1, _ | ⟨a2, _ | ⟨a3, _ | ⟨a4, _ | ⟨a5, _ | ⟨a6, _ | ⟨a7, _ | ⟨a8,
    _ | ⟨a9, _ | ⟨a10, _ | ⟨a11, _ | ⟨a12, l⟩⟩⟩⟩⟩⟩⟩⟩⟩⟩⟩⟩ <;> simp at h
  exact ⟨a1, a2, a3, a4, a5, a6, a7, a8, a9, a10, a11, rfl⟩

/-- The digits of a text after `stripNonDigits` are all digits. -/
theorem stripNonDigits_idem (s : List Char) : stripNonDigits (stripNonDigits s) = stripNonDigits s := by
  simp [stripNonDigits]

/-! ## Re-applying the formatters -/

/-- C13: for a string of exactly 11 ASCII digits, `formatarCPF` applied to its
own output returns that output unchanged, and the output contains no run of
11 consecutive digits. -/
theorem formatarCPF_idempotent_on_digits (d1 d2 d3 d4 d5 d6 d7 d8 d9 d10 d11 : Char)
    (hd : ∀ c ∈ [d1, d2, d3, d4, d5, d6, d7, d8, d9, d10, d11], c.isDigit = true) :
    formatarCPF (.str (formatarCPF (.str (String.mk [d1, d2, d3, d4, d5, d6, d7, d8, d9, d10, d11]))))
        = formatarCPF (.str (String.mk [d1, d2, d3, d4, d5, d6, d7, d8, d9, d10, d11])) ∧
      ¬ ∃ p d q : List Char,
        (formatarCPF (.str (String.mk [d1, d2, d3, d4, d5, d6, d7, d8, d9, d10, d11]))).data
          = p ++ d ++ q ∧ d.length = 11 ∧ ∀ c ∈ d, c.isDigit = true := by
  simp only [List.mem_cons, List.mem_singleton, forall_eq_or_imp, forall_eq, List.not_mem_nil,
    false_implies, implies_true, and_true] at hd
  obtain ⟨h1, h2, h3, h4, h5, h6, h7, h8, h9, h10, h11⟩ := hd
  have key : formatarCPF (.str (String.mk [d1, d2, d3, d4, d5, d6, d7, d8, d9, d10, d11])) =
      String.mk [d1, d2, d3, '.', d4, d5, d6, '.', d7, d8, d9, '-', d10, d11] := by
    simp [formatarCPF, formatarCPFTraced, JSVal.truthy, replaceFirst, matchGroups, takeDigits,
      expand, cpfReplacement, h1, h2, h3, h4, h5, h6, h7, h8, h9, h10, h11]
  have hdot : ('.' : Char).isDigit = false := by decide
  have hdash : ('-' : Char).isDigit = false := by decide
  rw [key]
  constructor
  · simp [formatarCPF, formatarCPFTraced, JSVal.truthy, replaceFirst, matchGroups, takeDigits,
      expand, cpfReplacement, h1, h2, h3, h4, h5, h6, h7, h8, h9, h10, h11, hdot, hdash]
  · rintro ⟨p, d, q, e, hlen, hdig⟩
    have hl := congrArg List.length e
    simp only [List.length_append, List.length_cons, List.length_nil, hlen] at hl
    have h7 : [d1, d2, d3, '.', d4, d5, d6, '.', d7, d8, d9, '-', d10, d11][7]? = some '.' := rfl
    have e2 : [d1, d2, d3, '.', d4, d5, d6, '.', d7, d8, d9, '-', d10, d11] = p ++ d ++ q := e
    rw [e2, List.append_assoc, List.getElem?_append_right (by omega),
      List.getElem?_append_left (by omega)] at h7
    have hmem : '.' ∈ d := List.getElem?_mem h7
    have := hdig '.' hmem
    simp [hdot] at this

theorem formatarCPF_idempotent_on_digits_witness :
    formatarCPF (.str (formatarCPF (.str (String.mk
        ['5', '2', '9', '9', '8', '2', '2', '4', '7', '2', '5'])))) =
      formatarCPF (.str (String.mk ['5', '2', '9', '9', '8', '2', '2', '4', '7', '2', '5'])) :=
  (formatarCPF_idempotent_on_digits '5' '2' '9' '9' '8' '2' '2' '4' '7' '2' '5' (by decide)).1

/-- C14: characters around the identifier are kept. For `p` without an ASCII
digit, `d` of exactly 11 ASCII digits and any `q`, `formatarCPF(p ++ d ++ q)`
is `p ++ formatarCPF(d) ++ q`: the leftmost run of 11 digits is regrouped,
once, and what follows it (digits included) is left as it is. -/
theorem formatarCPF_keeps_surroundings (p d q : String)
    (hp : ∀ c ∈ p.data, c.isDigit = false) (hlen : d.length = 11)
    (hd : ∀ c ∈ d.data, c.isDigit = true) :
    formatarCPF (.str (p ++ d ++ q)) = p ++ formatarCPF (.str d) ++ q := by
  obtain ⟨d1, d2, d3, d4, d5, d6, d7, d8, d9, d10, d11, hdd⟩ := eleven_elements d.data hlen
  rw [hdd] at hd
  simp only [List.mem_cons, List.mem_singleton, forall_eq_or_imp, forall_eq, List.not_mem_nil,
    false_implies, implies_true, and_true] at hd
  obtain ⟨h1, h2, h3, h4, h5, h6, h7, h8, h9, h10, h11⟩ := hd
  have hdne : d ≠ "" := by
    intro h
    rw [h] at hdd
    simp at hdd
  have hne : p ++ d ++ q ≠ "" := by
    intro h
    have := congrArg String.length h
    simp [String.length_append, hlen] at this
  rw [formatarCPF_str _ hne, formatarCPF_str _ hdne]
  apply String.ext
  simp only [String.data_append, List.append_assoc]
  rw [replaceFirst_skip 2 [3, 3, 2] cpfReplacement p.data (d.data ++ q.data) hp, hdd]
  simp [replaceFirst, matchGroups, takeDigits, expand, cpfReplacement,
    h1, h2, h3, h4, h5, h6, h7, h8, h9, h10, h11]

theorem formatarCPF_keeps_surroundings_witness :
    formatarCPF (.str ("CPF: " ++ "52998224725" ++ "0 (titular)")) =
      "CPF: " ++ formatarCPF (.str "52998224725") ++ "0 (titular)" ∧
      "CPF: " ++ formatarCPF (.str "52998224725") ++ "0 (titular)"
        = "CPF: 529.982.247-250 (titular)" :=
  ⟨formatarCPF_keeps_surroundings "CPF: " "52998224725" "0 (titular)"
    (by decide) (by decide) (by decide), by decide⟩

/-- The digits of a phone number regrouped by either phone pattern are the
digits it was built from. -/
theorem stripNonDigits_telefone (ks : List Nat) (hks : ks.length = 3) (n : List Char) :
    stripNonDigits (replaceFirst ks telefoneReplacement (stripNonDigits n)) = stripNonDigits n := by
  unfold stripNonDigits
  rw [filter_replaceFirst ks telefoneReplacement
    (fun gs hgs => expand_telefone_digits gs (hgs.trans hks))]
  simp

/-- C16: `formatarTelefone` is idempotent on every input: applied to its own
output it returns that output. -/
theorem formatarTelefone_idempotent (v : JSVal) :
    formatarTelefone (.str (formatarTelefone v)) = formatarTelefone v := by
  have hempty : formatarTelefone (.str "") = "" := by decide
  have hstr : ∀ t : String, formatarTelefone (.str (formatarTelefone (.str t))) =
      formatarTelefone (.str t) := by
    intro t
    by_cases ht : t = ""
    · subst ht
      rw [hempty, hempty]
    · have hform := formatarTelefone_str t ht
      by_cases h11 : (stripNonDigits t.data).length = 11
      · rw [if_pos h11] at hform
        have hd : stripNonDigits (formatarTelefone (.str t)).data = stripNonDigits t.data := by
          rw [hform]
          exact stripNonDigits_telefone [2, 5, 4] rfl t.data
        have hne : formatarTelefone (.str t) ≠ "" := by
          intro h
          rw [h] at hd
          rw [← hd] at h11
          simp [stripNonDigits] at h11
        rw [formatarTelefone_str _ hne, hd, if_pos h11, hform]
      · by_cases h10 : (stripNonDigits t.data).length = 10
        · rw [if_neg h11, if_pos h10] at hform
          have hd : stripNonDigits (formatarTelefone (.str t)).data = stripNonDigits t.data := by
            rw [hform]
            exact stripNonDigits_telefone [2, 4, 4] rfl t.data
          have hne : formatarTelefone (.str t) ≠ "" := by
            intro h
            rw [h] at hd
            rw [← hd] at h10
            simp [stripNonDigits] at h10
          rw [formatarTelefone_str _ hne, hd, if_neg h11, if_pos h10, hform]
        · rw [if_neg h11, if_neg h10] at hform
          rw [hform, hform]
  cases v with
  | undefined =>
    have : formatarTelefone .undefined = "" := rfl
    rw [this, hempty]
  | null =>
    have : formatarTelefone .null = "" := rfl
    rw [this, hempty]
  | str t => exact hstr t

/-- C17: neither formatter drops, adds or reorders digits: the ASCII digits of
`formatarCPF(s)` and those of `formatarTelefone(s)` are the ASCII digits of
`s`, in the same order. -/
theorem formatters_keep_digits (s : String) :
    (formatarCPF (.str s)).data.filter Char.isDigit = s.data.filter Char.isDigit ∧
      (formatarTelefone (.str s)).data.filter Char.isDigit = s.data.filter Char.isDigit := by
  by_cases hs : s = ""
  · subst hs
    constructor <;> decide
  · constructor
    · rw [formatarCPF_str s hs]
      exact filter_replaceFirst [3, 3, 3, 2] cpfReplacement expand_cpf_digits s.data
    · rw [formatarTelefone_str s hs]
      split_ifs
      · exact stripNonDigits_telefone [2, 5, 4] rfl s.data
      · exact stripNonDigits_telefone [2, 4, 4] rfl s.data
      · rfl

/-! ## The final pass of the counter animation -/

/-- C18: the final pass of `updateCounter` does not change what is displayed.
When the host represents every parsed target exactly (a target is a number
of the host already), `updateCounter` and the same callback without its
`else` branch leave the same counters and request a frame in the same cases,
at every elapsed time. -/
theorem updateCounter_else_redundant (h : Host) (startTime timestamp : ℚ)
    (counters : List Counter)
    (hexact : ∀ c ∈ counters, ∀ n : ℤ, h.parseInt c.dataCount = some n →
      h.round (n : ℚ) = (n : ℚ)) :
    updateCounter h startTime counters timestamp =
      updateCounterWithoutElse h startTime counters timestamp := by
  unfold updateCounter updateCounterWithoutElse
  simp only
  generalize h.round (timestamp - startTime) = e
  by_cases hp : progressAt h e < 1
  · simp [hp]
  · have hle : progressAt h e ≤ 1 := min_le_right _ _
    have hone : progressAt h e = 1 := le_antisymm hle (not_lt.1 hp)
    rw [hone, if_neg (lt_irrefl 1), if_neg (lt_irrefl 1)]
    simp only [Prod.mk.injEq, and_true, List.map_map]
    apply List.map_congr_left
    intro c hc
    simp only [Function.comp, writeTarget, writeCurrent, currentAt]
    cases hn : h.parseInt c.dataCount with
    | none => rfl
    | some n =>
      have := hexact c hc n hn
      simp [this]

theorem updateCounter_else_redundant_witness :
    (∀ c ∈ [(⟨some "1000", "0"⟩ : Counter), ⟨none, "-"⟩], ∀ n : ℤ,
        hostSaoPaulo.parseInt c.dataCount = some n → hostSaoPaulo.round (n : ℚ) = (n : ℚ)) ∧
      updateCounter hostSaoPaulo 0 [⟨some "1000", "0"⟩, ⟨none, "-"⟩] 2000 =
        updateCounterWithoutElse hostSaoPaulo 0 [⟨some "1000", "0"⟩, ⟨none, "-"⟩] 2000 :=
  ⟨fun _ _ _ _ => rfl,
    updateCounter_else_redundant hostSaoPaulo 0 2000 [⟨some "1000", "0"⟩, ⟨none, "-"⟩]
      (fun _ _ _ _ => rfl)⟩

/-! ## The visibility trigger -/

/-- The state after a run of entries, in closed form: nothing changes once the
latch is set or while no entry intersects; otherwise the latch is set and
`animateCounters` has been called once more. -/
theorem foldl_onEntry (es : List Entry) (s : ObserverState) :
    es.foldl onEntry s =
      if s.animated then s
      else if es.any (fun e => e.isIntersecting) then
        { animated := true, animateCalls := s.animateCalls + 1 }
      else s := by
  induction es generalizing s with
  | nil => simp
  | cons e es ih =>
    rw [List.foldl_cons, ih]
    rcases s with ⟨a, n⟩
    cases a <;> cases hi : e.isIntersecting <;> simp [onEntry, hi]

/-- A sequence of notifications acts as the run of all their entries. -/
theorem runCallbacks_flatten (s : ObserverState) (callbacks : List (List Entry)) :
    runCallbacks s callbacks = callbacks.flatten.foldl onEntry s := by
  induction callbacks generalizing s with
  | nil => rfl
  | cons es cbs ih =>
    simp only [runCallbacks, List.foldl_cons, List.flatten_cons, List.foldl_append] at ih ⊢
    exact ih (observerCallback s es)

/-- C11: over any finite sequence of observer notifications, `animateCounters`
is called at most once, and exactly once when some entry intersects; the
latch `animated` is set exactly then. It goes from false to true at the first
intersecting entry, and from a state where it is set no notification resets
it or calls `animateCounters` again. -/
theorem observer_latch (callbacks : List (List Entry)) :
    (runCallbacks .initial callbacks).animateCalls ≤ 1 ∧
      ((∃ es ∈ callbacks, ∃ e ∈ es, e.isIntersecting = true) →
        runCallbacks .initial callbacks = { animated := true, animateCalls := 1 }) ∧
      ((¬ ∃ es ∈ callbacks, ∃ e ∈ es, e.isIntersecting = true) →
        runCallbacks .initial callbacks = { animated := false, animateCalls := 0 }) ∧
      (∀ (pre post : List Entry) (e : Entry), callbacks.flatten = pre ++ e :: post →
        (∀ x ∈ pre, x.isIntersecting = false) → e.isIntersecting = true →
        pre.foldl onEntry .initial = { animated := false, animateCalls := 0 } ∧
          (pre ++ [e]).foldl onEntry .initial = { animated := true, animateCalls := 1 }) ∧
      (∀ (s : ObserverState) (more : List (List Entry)), s.animated = true →
        runCallbacks s more = s) := by
  have hany : (callbacks.flatten.any fun e => e.isIntersecting) = true ↔
      ∃ es ∈ callbacks, ∃ e ∈ es, e.isIntersecting = true := by
    rw [List.any_eq_true]
    constructor
    · rintro ⟨e, he, h3⟩
      obtain ⟨es, h1, h2⟩ := List.mem_flatten.1 he
      exact ⟨es, h1, e, h2, h3⟩
    · rintro ⟨es, h1, e, h2, h3⟩
      exact ⟨e, List.mem_flatten.2 ⟨es, h1, h2⟩, h3⟩
  have hrun := runCallbacks_flatten .initial callbacks
  rw [foldl_onEntry] at hrun
  refine ⟨?_, ?_, ?_, ?_, ?_⟩
  · rw [hrun]
    simp only [ObserverState.initial]
    split_ifs <;> simp
  · intro hex
    rw [hrun, hany.2 hex]
    rfl
  · intro hex
    have : (callbacks.flatten.any fun e => e.isIntersecting) = false := by
      cases hb : (callbacks.flatten.any fun e => e.isIntersecting) with
      | false => rfl
      | true => exact absurd (hany.1 hb) hex
    rw [hrun, this]
    rfl
  · intro pre post e _ hpre he
    rw [foldl_onEntry, foldl_onEntry]
    have h1 : (pre.any fun e => e.isIntersecting) = false := by
      cases hb : (pre.any fun e => e.isIntersecting) with
      | false => rfl
      | true =>
        obtain ⟨x, hx, hxi⟩ := List.any_eq_true.1 hb
        rw [hpre x hx] at hxi
        exact absurd hxi (by decide)
    have h2 : ((pre ++ [e]).any fun e => e.isIntersecting) = true :=
      List.any_eq_true.2 ⟨e, by simp, he⟩
    rw [h1, h2]
    exact ⟨rfl, rfl⟩
  · intro s more hs
    rw [runCallbacks_flatten, foldl_onEntry, if_pos hs]

theorem observer_latch_witness :
    (∃ es ∈ [[(⟨false⟩ : Entry)], [⟨false⟩, ⟨true⟩, ⟨true⟩], [⟨false⟩], [⟨true⟩]],
        ∃ e ∈ es, e.isIntersecting = true) ∧
      runCallbacks .initial [[⟨false⟩], [⟨false⟩, ⟨true⟩, ⟨true⟩], [⟨false⟩], [⟨true⟩]] =
        { animated := true, animateCalls := 1 } := by
  have hex : ∃ es ∈ [[(⟨false⟩ : Entry)], [⟨false⟩, ⟨true⟩, ⟨true⟩], [⟨false⟩], [⟨true⟩]],
      ∃ e ∈ es, e.isIntersecting = true :=
    ⟨[⟨true⟩], by simp, ⟨true⟩, by simp, rfl⟩
  exact ⟨hex, (observer_latch _).2.1 hex⟩

/-! ## The confirmation guard -/

/-- C12: a click on an element carrying `data-confirm` shows the prompt exactly
once; `preventDefault` is called on the event if and only if the user
declines, and when the user accepts the event is left as it was. -/
theorem click_confirm (confirm : String → Bool) (element : Element) (e : ClickEvent)
    (hflag : element.dataConfirm = true) :
    (click confirm element e).2.count (.confirm confirmMessage) = 1 ∧
      (∀ m, GuardCall.confirm m ∈ (click confirm element e).2 → m = confirmMessage) ∧
      (GuardCall.preventDefault ∈ (click confirm element e).2 ↔
        confirm confirmMessage = false) ∧
      (click confirm element e).2.count .preventDefault ≤ 1 ∧
      (confirm confirmMessage = true → (click confirm element e).1 = e) ∧
      (confirm confirmMessage = false → (click confirm element e).1 = e.preventDefault) := by
  cases hc : confirm confirmMessage <;>
    simp [click, hflag, confirmListener, hc, List.count_cons]

theorem click_confirm_witness :
    (click (fun _ => false) ⟨false, false, none, true, "Excluir"⟩ ⟨true, false⟩).2.count
        (.confirm confirmMessage) = 1 ∧
      (click (fun _ => false) ⟨false, false, none, true, "Excluir"⟩ ⟨true, false⟩).1 =
        { cancelable := true, defaultPrevented := true } := by
  have key := click_confirm (fun _ => false) ⟨false, false, none, true, "Excluir"⟩
    ⟨true, false⟩ rfl
  exact ⟨key.1, key.2.2.2.2.2 rfl⟩

/-! ## The page initializer -/

/-- The text is empty exactly when it is falsy. -/
theorem truthy_str_false (s : String) : (JSVal.str s).truthy = false ↔ s = "" := by
  rw [← not_iff_not, Bool.not_eq_false]
  exact truthy_str s

/-- C15: the three formatting loops of the initializer, each read against the
text the element has when the loop reaches it. The loops run in the order
cpf, telefone, data over every element. An element with `data-format-cpf`
(respectively `data-format-telefone`) keeps its text when the trimmed text is
empty and otherwise gets the formatter applied to the trimmed text; one with
`data-format-data` keeps its text when the value is empty and otherwise gets
`formatarData` of the value, the empty string when the value does not parse.
A loop leaves an element without its marker as it is, so an element with one
marker ends with what that loop wrote and one with no marker is not
written. -/
theorem formatPage_elements (h : Host) (page : List Element) :
    (formatPage h page).length = page.length ∧
      (∀ (i : Nat) (el : Element), page[i]? = some el →
        (formatPage h page)[i]? =
          some (formatDataElement h (formatTelefoneElement (formatCpfElement el)))) ∧
      (∀ el : Element, el.formatCpf = true →
        (trim el.textContent = "" → formatCpfElement el = el) ∧
        (trim el.textContent ≠ "" → formatCpfElement el =
          { el with textContent := formatarCPF (.str (trim el.textContent)) })) ∧
      (∀ el : Element, el.formatTelefone = true →
        (trim el.textContent = "" → formatTelefoneElement el = el) ∧
        (trim el.textContent ≠ "" → formatTelefoneElement el =
          { el with textContent := formatarTelefone (.str (trim el.textContent)) })) ∧
      (∀ (el : Element) (v : String), el.formatData = some v →
        (v = "" → formatDataElement h el = el) ∧
        (v ≠ "" → formatDataElement h el =
          { el with textContent := formatarData h (.str v) }) ∧
        (v ≠ "" → h.dateParse v = none → formatDataElement h el =
          { el with textContent := "" })) ∧
      (∀ el : Element, (el.formatCpf = false → formatCpfElement el = el) ∧
        (el.formatTelefone = false → formatTelefoneElement el = el) ∧
        (el.formatData = none → formatDataElement h el = el)) ∧
      (∀ (i : Nat) (el : Element), page[i]? = some el →
        el.formatCpf = false → el.formatTelefone = false → el.formatData = none →
        (formatPage h page)[i]? = some el) ∧
      (∀ (i : Nat) (el : Element), page[i]? = some el →
        el.formatTelefone = false → el.formatData = none →
        (formatPage h page)[i]? = some (formatCpfElement el)) ∧
      (∀ (i : Nat) (el : Element), page[i]? = some el →
        el.formatCpf = false → el.formatData = none →
        (formatPage h page)[i]? = some (formatTelefoneElement el)) ∧
      (∀ (i : Nat) (el : Element), page[i]? = some el →
        el.formatCpf = false → el.formatTelefone = false →
        (formatPage h page)[i]? = some (formatDataElement h el)) := by
  have hcomp : ∀ (i : Nat) (el : Element), page[i]? = some el →
      (formatPage h page)[i]? =
        some (formatDataElement h (formatTelefoneElement (formatCpfElement el))) := by
    intro i el hi
    simp [formatPage, List.getElem?_map, hi]
  have hcpf : ∀ el : Element, el.formatCpf = false → formatCpfElement el = el := by
    intro el hf
    simp [formatCpfElement, hf]
  have htel : ∀ el : Element, el.formatTelefone = false → formatTelefoneElement el = el := by
    intro el hf
    simp [formatTelefoneElement, hf]
  have hdat : ∀ el : Element, el.formatData = none → formatDataElement h el = el := by
    intro el hf
    simp [formatDataElement, hf]
  have hcpf_tel : ∀ el : Element, (formatCpfElement el).formatTelefone = el.formatTelefone := by
    intro el
    simp only [formatCpfElement]
    split_ifs <;> rfl
  have hcpf_dat : ∀ el : Element, (formatCpfElement el).formatData = el.formatData := by
    intro el
    simp only [formatCpfElement]
    split_ifs <;> rfl
  have htel_dat : ∀ el : Element, (formatTelefoneElement el).formatData = el.formatData := by
    intro el
    simp only [formatTelefoneElement]
    split_ifs <;> rfl
  refine ⟨by simp [formatPage], hcomp, ?_, ?_, ?_, fun el => ⟨hcpf el, htel el, hdat el⟩,
    ?_, ?_, ?_, ?_⟩
  · intro el hf
    constructor
    · intro ht
      simp [formatCpfElement, hf, (truthy_str_false _).2 ht]
    · intro ht
      simp [formatCpfElement, hf, (truthy_str _).2 ht]
  · intro el hf
    constructor
    · intro ht
      simp [formatTelefoneElement, hf, (truthy_str_false _).2 ht]
    · intro ht
      simp [formatTelefoneElement, hf, (truthy_str _).2 ht]
  · intro el v hv
    refine ⟨?_, ?_, ?_⟩
    · intro ht
      simp [formatDataElement, hv, (truthy_str_false _).2 ht]
    · intro ht
      simp [formatDataElement, hv, (truthy_str _).2 ht]
    · intro ht hp
      have := (formatarData_unparseable_aux h v ht hp)
      simp [formatDataElement, hv, (truthy_str _).2 ht, this]
  · intro i el hi h1 h2 h3
    rw [hcomp i el hi, hcpf el h1, htel el h2, hdat el h3]
  · intro i el hi h2 h3
    rw [hcomp i el hi, htel _ ((hcpf_tel el).trans h2),
      hdat _ ((hcpf_dat el).trans h3)]
  · intro i el hi h1 h3
    rw [hcomp i el hi, hcpf el h1, hdat _ ((htel_dat el).trans h3)]
  · intro i el hi h1 h2
    rw [hcomp i el hi, hcpf el h1, htel el h2]

theorem formatPage_elements_witness :
    formatPage hostUTC
        [⟨true, false, none, false, "  52998224725\n"⟩,
          ⟨false, true, none, false, " 11 98765 4321 "⟩,
          ⟨false, false, some "2024-03-05", false, "?"⟩,
          ⟨false, false, some "amanhã", false, "?"⟩,
          ⟨true, false, none, false, " \t "⟩,
          ⟨false, false, none, true, " Excluir "⟩] =
        [⟨true, false, none, false, "529.982.247-25"⟩,
          ⟨false, true, none, false, "(11) 98765-4321"⟩,
          ⟨false, false, some "2024-03-05", false, "05/03/2024"⟩,
          ⟨false, false, some "amanhã", false, ""⟩,
          ⟨true, false, none, false, " \t "⟩,
          ⟨false, false, none, true, " Excluir "⟩] ∧
      (formatPage hostUTC
        [⟨true, false, none, false, "  52998224725\n"⟩,
          ⟨false, true, none, false, " 11 98765 4321 "⟩,
          ⟨false, false, some "2024-03-05", false, "?"⟩,
          ⟨false, false, some "amanhã", false, "?"⟩,
          ⟨true, false, none, false, " \t "⟩,
          ⟨false, false, none, true, " Excluir "⟩])[5]? =
        some ⟨false, false, none, true, " Excluir "⟩ :=
  ⟨by decide,
    (formatPage_elements hostUTC _).2.2.2.2.2.2.1 5 ⟨false, false, none, true, " Excluir "⟩
      rfl rfl rfl rfl⟩

end Biblioteca
